import Mathlib

/-! # Face detection demo (gpu_demos_pack/demos/face_detection/face_detection.cpp)

A shallow embedding of the demo's orchestration code: the options record of `App`,
the key handler, the command-line hook, `resizeAndConvert`, and one pass of the
capture loop of `App::process`.

Conventions of the embedding.
* `double` values are the rationals that are IEEE binary64 numbers: a literal and the
  result of every multiplication and division are rounded to the nearest such number,
  ties to even (`roundDouble`), as SSE2 arithmetic does. Infinities are outside the
  model: it agrees with the C++ while results stay below `2 ^ 1024` in magnitude.
* `int` values are `Int`, `size_t` values are `Nat` with an explicit `% 2 ^ 64`.
* Calls into the vision library and into `utility.h` are fields of `Extern`
  (when their result is a black box) or small header-level models (`resize`,
  `cvtColor`) that record which call was made with which arguments.
* A C++ call either returns, throws, or has undefined behaviour: `Outcome`.
-/

namespace FaceDetection

/-! ## Data model -/

/-- Modelled from the spec: a video source (`FrameSource` of utility.h, which is not in
this file), identified by the path it was opened from. -/
structure FrameSource where
  path : String
  deriving DecidableEq, Repr

/-- The members of the base class `BaseApp` that face_detection.cpp reads and writes. -/
structure BaseApp where
  exited : Bool
  sources : List FrameSource
  deriving DecidableEq, Repr

/-- The class `App : public BaseApp` (lines 33-58), without the two classifier objects,
which are reached through `Extern`. -/
structure App extends BaseApp where
  cascade_name : String
  useGPU : Bool
  scaleFactor : ℚ
  findLargestObject : Bool
  filterRects : Bool
  showHelp : Bool
  curSource : Nat
  deriving DecidableEq, Repr

/-- A rectangle `cv::Rect`. -/
structure Rect where
  x : Int
  y : Int
  width : Int
  height : Int
  deriving DecidableEq, Repr

/-- A size `cv::Size`. -/
structure Size where
  width : Int
  height : Int
  deriving DecidableEq, Repr

/-- Pixel content of an image, kept symbolically: which library calls produced it. -/
inductive Pixels where
  | empty
  | captured (id : Nat)
  | resized (src : Pixels) (dsize : Size)
  | converted (src : Pixels) (code : Int)
  deriving DecidableEq, Repr

/-- An image header (`cv::Mat` and `cv::gpu::GpuMat` share it) with symbolic content. -/
structure Mat where
  cols : Int
  rows : Int
  channels : Int
  data : Pixels
  deriving DecidableEq, Repr

/-- A line of the text overlay: literal text, a label followed by two dimensions printed
as `<w>x<h>`, or a label followed by a number printed with `fixed << setprecision(1)`. -/
inductive Text where
  | str (s : String)
  | dims (label : String) (w h : Int)
  | fixed1 (label : String) (value : ℚ)
  deriving DecidableEq, Repr

/-- Arguments of `CascadeClassifier_GPU::detectMultiScale` together with the two public
members of the classifier set right before the call (lines 104-109). -/
structure GpuCall where
  image : Mat
  scaleFactor : ℚ
  minNeighbors : Int
  visualizeInPlace : Bool
  findLargestObject : Bool
  deriving DecidableEq, Repr

/-- Arguments of `CascadeClassifier::detectMultiScale` (lines 130-134). -/
structure CpuCall where
  image : Mat
  scaleFactor : ℚ
  minNeighbors : Int
  flags : Nat
  minSize : Size
  deriving DecidableEq, Repr

/-- Effects on the outside world, in the order they happen. -/
inductive Event where
  | cout (text : String)
  | coutScale (scaleFactor : ℚ)
  | coutSource (curSource : Nat)
  | gpuDetect (call : GpuCall)
  | cpuDetect (call : CpuCall)
  | reset (src : FrameSource)
  | next (src : FrameSource)
  | rectangle (r : Rect)
  | printText (text : Text) (line : Nat) (red : Bool)
  | imshow (img : Mat)
  deriving DecidableEq, Repr

/-- The exceptions that can leave the code of this file. -/
inductive Exn where
  | runtime (msg : String)
  | videoSource (path : String)
  | lengthError
  | cvAssert
  deriving DecidableEq, Repr

/-- Result of running a piece of C++: it returns `r` in state `s`, throws `e` in state
`s`, or its behaviour is undefined. -/
inductive Outcome (ρ σ : Type) where
  | ret (r : ρ) (s : σ)
  | threw (e : Exn) (s : σ)
  | undefined
  deriving DecidableEq, Repr

/-- The `App` object together with the log of effects so far. -/
structure World where
  app : App
  log : List Event
  deriving DecidableEq, Repr

/-- What lies outside face_detection.cpp: `BaseApp::processKey` and the `VideoSource`
constructor of utility.h, and the two cascade classifiers of the vision library. -/
structure Extern where
  baseProcessKey : Int → BaseApp → Bool × BaseApp
  videoOpens : String → Bool
  gpuLoad : String → Bool
  cpuLoad : String → Bool
  classifierSize : Size
  gpuDetect : GpuCall → Int × List Rect
  cpuDetect : CpuCall → List Rect

/-! ## Double arithmetic -/

/-- The nearest integer, halves to the even one. -/
def roundHalfEven (x : ℚ) : Int :=
  let f := ⌊x⌋
  let d := x - f
  if d < 1 / 2 then f else if 1 / 2 < d then f + 1 else if f % 2 = 0 then f else f + 1

/-- The spacing of binary64 numbers around `x`: 52 fraction bits below the leading bit,
and the fixed spacing `2 ^ (-1074)` in the subnormal range. -/
def ulp (x : ℚ) : ℚ :=
  (2 : ℚ) ^ (max (Int.log 2 |x|) (-1022) - 52)

/-- The binary64 number nearest to `x`, ties to even: the value of a `double` literal
and of the exact result of an operation. -/
def roundDouble (x : ℚ) : ℚ :=
  roundHalfEven (x / ulp x) * ulp x

/-- The product of two `double`s. -/
def fmul (x y : ℚ) : ℚ :=
  roundDouble (x * y)

/-- The quotient of two `double`s. -/
def fdiv (x y : ℚ) : ℚ :=
  roundDouble (x / y)

/-! ## Constructor and key handler -/

/-- The constructor `App::App()` (lines 60-68) on top of a constructed base part;
`cascade_name` is default-constructed, hence empty. -/
def App.new (base : BaseApp) : App :=
  { toBaseApp := base
    cascade_name := ""
    useGPU := true
    scaleFactor := roundDouble (14 / 10)
    findLargestObject := false
    filterRects := true
    showHelp := false
    curSource := 0 }

/-- The C function `toupper` in the "C" locale. -/
def toupper (c : Int) : Int :=
  if 97 ≤ c ∧ c ≤ 122 then c - 32 else c

/-- The method `App::processKey` (lines 190-243). `key & 0xff` is `key % 256`. The switch
is an if-chain over the same constants. `% sources.size()` is undefined for an empty
list. -/
def App.processKey (ext : Extern) (key : Int) (w : World) : Outcome Bool World :=
  let b := ext.baseProcessKey key w.app.toBaseApp
  let s : App := { w.app with toBaseApp := b.2 }
  if b.1 then .ret true { w with app := s }
  else
    let c := toupper (key % 256)
    if c = 32 then
      let s1 := { s with useGPU := !s.useGPU }
      .ret true ⟨s1, w.log ++
        [.cout ("Switched to " ++ (if s1.useGPU then "CUDA" else "CPU") ++ " mode\n")]⟩
    else if c = 72 then
      .ret true ⟨{ s with showHelp := !s.showHelp }, w.log⟩
    else if c = 49 then
      let s1 := { s with scaleFactor := fmul s.scaleFactor (roundDouble (105 / 100)) }
      .ret true ⟨s1, w.log ++ [.coutScale s1.scaleFactor]⟩
    else if c = 81 then
      let s1 := { s with scaleFactor := fdiv s.scaleFactor (roundDouble (105 / 100)) }
      .ret true ⟨s1, w.log ++ [.coutScale s1.scaleFactor]⟩
    else if c = 77 then
      let s1 := { s with findLargestObject := !s.findLargestObject }
      .ret true ⟨s1, w.log ++
        [.cout (if s1.findLargestObject then "OneFace mode\n" else "MultiFace mode\n")]⟩
    else if c = 70 then
      let s1 := { s with filterRects := !s.filterRects }
      .ret true ⟨s1, w.log ++
        [.cout (if s1.filterRects then "Enable rectangles filter\n"
                else "Disable rectangles filter\n")]⟩
    else if c = 78 then
      if s.sources.length = 0 then .undefined
      else
        let s1 := { s with curSource := (s.curSource + 1) % 2 ^ 64 % s.sources.length }
        match s1.sources[s1.curSource]? with
        | none => .undefined
        | some src =>
          .ret true ⟨s1, w.log ++
            [.reset src, .coutSource s1.curSource]⟩
    else .ret false { w with app := s }

/-- Key presses handled one after the other, stopping at the first that does not return. -/
def App.processKeys (ext : Extern) : List Int → World → Outcome Bool World
  | [], w => .ret true w
  | k :: ks, w =>
    match App.processKey ext k w with
    | .ret _ w1 => App.processKeys ext ks w1
    | o => o

/-! ## Command line -/

/-- Modelled from the spec: the macro `THROW_EXCEPTION` of utility.h (not in this file),
which throws a fatal error carrying the streamed message. -/
def THROW_EXCEPTION (msg : String) : Exn :=
  .runtime msg

/-- The element `argv[i]`; reading outside the `argc` strings is undefined. -/
def argAt (argv : List String) (i : Int) : Option String :=
  if 0 ≤ i then argv[i.toNat]? else none

/-- The reference parameter `i` of `App::parseCmdArgs` and the object. -/
structure ArgState where
  i : Int
  app : App
  deriving DecidableEq, Repr

/-- The method `App::parseCmdArgs` (lines 245-262). `argv` holds the `argc` argument
strings; `++i` on `INT_MAX` is undefined. -/
def App.parseCmdArgs (i argc : Int) (argv : List String) (s : App) : Outcome Bool ArgState :=
  match argAt argv i with
  | none => .undefined
  | some arg =>
    if arg = "--cascade" then
      if 2 ^ 31 ≤ i + 1 then .undefined
      else
        let i1 := i + 1
        if i1 ≥ argc then
          .threw (THROW_EXCEPTION ("Missing file name after " ++ arg)) ⟨i1, s⟩
        else
          match argAt argv i1 with
          | none => .undefined
          | some name => .ret true ⟨i1, { s with cascade_name := name }⟩
    else .ret false ⟨i, s⟩

/-! ## Frames -/

/-- The library function `cvRound` on a `double`: the nearest integer, halves to the even
one (the default rounding of `lrint` and of the SSE2 conversion). It agrees with the C++
whenever the result fits in an `int`. -/
def cvRound (x : ℚ) : Int :=
  roundHalfEven x

/-- The conversion code `COLOR_BGR2GRAY`. -/
def COLOR_BGR2GRAY : Int := 6

/-- The conversion code `COLOR_BGRA2GRAY`. -/
def COLOR_BGRA2GRAY : Int := 10

/-- The library call `resize(src, dst, dsize)` at header level: `dst` has the requested
size and the channels of `src`. -/
def resize (src : Mat) (dsize : Size) : Mat :=
  { cols := dsize.width, rows := dsize.height, channels := src.channels,
    data := .resized src.data dsize }

/-- The library call `cvtColor(src, dst, code)` at header level, for the two to-gray
codes used here: `dst` has the size of `src` and one channel. -/
def cvtColor (src : Mat) (code : Int) : Mat :=
  { cols := src.cols, rows := src.rows, channels := 1, data := .converted src.data code }

/-- The template `resizeAndConvert` (lines 16-31); the pair is `(resized, gray)`. The
`int` dimensions convert to `double` exactly and the products are `double` products. -/
def resizeAndConvert (src : Mat) (scale : ℚ) : Mat × Mat :=
  let sz : Size := ⟨cvRound (fmul src.cols scale), cvRound (fmul src.rows scale)⟩
  let resized := if scale ≠ 1 then resize src sz else src
  let gray :=
    if resized.channels = 3 then cvtColor resized COLOR_BGR2GRAY
    else if resized.channels = 4 then cvtColor resized COLOR_BGRA2GRAY
    else resized
  (resized, gray)

/-! ## The capture loop -/

/-- The method `App::displayState` (lines 157-188): the overlay lines in order. -/
def App.displayState (s : App) (frame : Mat) (proc_fps total_fps : ℚ) : List Event :=
  [ .printText (.dims "Source size: " frame.cols frame.rows) 0 false,
    .printText (.str (if s.useGPU then "Mode: CUDA" else "Mode: CPU")) 1 false,
    .printText (.fixed1 "FPS (FD only): " proc_fps) 2 false,
    .printText (.fixed1 "FPS (total): " total_fps) 3 false ] ++
  (if !s.showHelp then
    [.printText (.str "H - toggle hotkeys help") 4 true]
  else
    [ .printText (.str "Space - switch GPU / CPU") 4 true,
      .printText (.str "1/Q - increase/decrease scale") 5 true,
      .printText (.str "M - switch OneFace / MultiFace") 6 true,
      .printText (.str "F - toggle rectangles filter") 7 true ] ++
    (if s.sources.length > 1 then [.printText (.str "N - next source") 8 true] else []))

/-- The flag `CV_HAAR_SCALE_IMAGE`. -/
def CV_HAAR_SCALE_IMAGE : Nat := 2

/-- The flag `CV_HAAR_FIND_BIGGEST_OBJECT`. -/
def CV_HAAR_FIND_BIGGEST_OBJECT : Nat := 4

/-- What the GPU classifier is called with (lines 104-109). -/
def App.gpuCall (s : App) (gray_gpu : Mat) : GpuCall :=
  { image := gray_gpu
    scaleFactor := roundDouble (12 / 10)
    minNeighbors := if s.filterRects || s.findLargestObject then 4 else 0
    visualizeInPlace := false
    findLargestObject := s.findLargestObject }

/-- What the CPU classifier is called with (lines 130-134). -/
def App.cpuCall (s : App) (gray_cpu : Mat) (minSize : Size) : CpuCall :=
  { image := gray_cpu
    scaleFactor := roundDouble (12 / 10)
    minNeighbors := if s.filterRects || s.findLargestObject then 4 else 0
    flags := (if s.findLargestObject then CV_HAAR_FIND_BIGGEST_OBJECT else 0)
      ||| CV_HAAR_SCALE_IMAGE
    minSize := minSize }

/-- The call `faces.resize(n)` of `std::vector<Rect>`. -/
def vectorResize (faces : List Rect) (n : Nat) : List Rect :=
  faces.take n ++ List.replicate (n - faces.length) ⟨0, 0, 0, 0⟩

/-- The call `download` into a header laid over the storage of `faces`: every column of
the source overwrites the element at the same position. -/
def downloadInto (src faces : List Rect) : List Rect :=
  src ++ faces.drop src.length

/-- Lines 111-118: the list of faces after a GPU detection that returned
`detections_num` with output buffer `facesBuf_gpu`. A negative count makes
`vector::resize` throw; `colRange` asserts that the buffer has that many columns. -/
def updateFaces (faces : List Rect) (detections_num : Int) (facesBuf_gpu : List Rect) :
    Except Exn (List Rect) :=
  if detections_num = 0 then .ok []
  else if detections_num < 0 then .error .lengthError
  else
    let faces1 := vectorResize faces detections_num.toNat
    if facesBuf_gpu.length < detections_num.toNat then .error .cvAssert
    else .ok (downloadInto (facesBuf_gpu.take detections_num.toNat) faces1)

/-- The local variables of `App::process` that live across iterations (lines 87-90). -/
structure Locals where
  frame_cpu : Mat
  gray_cpu : Mat
  resized_cpu : Mat
  img_to_show : Mat
  frame_gpu : Mat
  gray_gpu : Mat
  resized_gpu : Mat
  facesBuf_gpu : List Rect
  faces : List Rect
  deriving DecidableEq, Repr

/-- A default-constructed image. -/
def Mat.empty : Mat :=
  { cols := 0, rows := 0, channels := 1, data := .empty }

/-- The locals as declared, before the first iteration. -/
def Locals.init : Locals :=
  { frame_cpu := Mat.empty, gray_cpu := Mat.empty, resized_cpu := Mat.empty,
    img_to_show := Mat.empty, frame_gpu := Mat.empty, gray_gpu := Mat.empty,
    resized_gpu := Mat.empty, facesBuf_gpu := [], faces := [] }

/-- What the outside world supplies during one iteration: the frame delivered by
`next`, the value of `waitKey(3)`, and the two measured rates. -/
structure Input where
  frame : Mat
  key : Int
  proc_fps : ℚ
  total_fps : ℚ
  deriving DecidableEq, Repr

/-- Lines 99-137: the detection step of one iteration on the frame in `frame_cpu`: the
call made to the detector of the active engine, and the locals after it. -/
def App.detect (ext : Extern) (s : App) (l : Locals) : Event × Except Exn Locals :=
  if s.useGPU then
    let frame_gpu := l.frame_cpu
    let rg := resizeAndConvert frame_gpu s.scaleFactor
    let call := s.gpuCall rg.2
    let d := ext.gpuDetect call
    (.gpuDetect call,
      match updateFaces l.faces d.1 d.2 with
      | .error e => .error e
      | .ok faces =>
        .ok { l with frame_gpu := frame_gpu, resized_gpu := rg.1, gray_gpu := rg.2,
                     facesBuf_gpu := d.2, faces := faces })
  else
    let rg := resizeAndConvert l.frame_cpu s.scaleFactor
    let minSize := ext.classifierSize
    let call := s.cpuCall rg.2 minSize
    (.cpuDetect call,
      .ok { l with resized_cpu := rg.1, gray_cpu := rg.2, faces := ext.cpuDetect call })

/-- One pass of the body of the loop of `App::process` (lines 94-153). Indexing
`sources` out of range is undefined. Drawing changes pixels only, which the log
records. -/
def App.iteration (ext : Extern) (inp : Input) (w : World) (l : Locals) :
    Outcome Unit (World × Locals) :=
  let s := w.app
  match s.sources[s.curSource]? with
  | none => .undefined
  | some src =>
    let l1 := { l with frame_cpu := inp.frame }
    let det := App.detect ext s l1
    let log1 := w.log ++ [.next src, det.1]
    match det.2 with
    | .error e => .threw e (⟨s, log1⟩, l1)
    | .ok l2 =>
      let img_to_show := if s.useGPU then l2.resized_gpu else l2.resized_cpu
      let l3 := { l2 with img_to_show := img_to_show }
      let log2 := log1 ++ l3.faces.map .rectangle
        ++ s.displayState img_to_show inp.proc_fps inp.total_fps ++ [.imshow img_to_show]
      match App.processKey ext (inp.key % 256) ⟨s, log2⟩ with
      | .ret _ w1 => .ret () (w1, l3)
      | .threw e w1 => .threw e (w1, l3)
      | .undefined => .undefined

/-- The loop `while (!exited)` run on a finite supply of inputs. -/
def App.loop (ext : Extern) : List Input → World → Locals → Outcome Unit (World × Locals)
  | [], w, l => .ret () (w, l)
  | inp :: rest, w, l =>
    if w.app.exited then .ret () (w, l)
    else
      match App.iteration ext inp w l with
      | .ret _ st => App.loop ext rest st.1 st.2
      | .threw e st => .threw e st
      | .undefined => .undefined

/-- The default cascade file (line 75). -/
def defaultCascade : String := "data/face_detect/haarcascade_frontalface_alt.xml"

/-- The default video (line 84). -/
def defaultVideo : String := "data/face_detect/browser.flv"

/-- Modelled from the spec: the constructor `VideoSource(path)` of utility.h (not in this
file), which throws a fatal error when the video source cannot be opened. -/
def newVideoSource (ext : Extern) (path : String) : Except Exn FrameSource :=
  if ext.videoOpens path then .ok ⟨path⟩ else .error (.videoSource path)

/-- Lines 72-76 of `App::process`: an empty `cascade_name` becomes the default file. -/
def App.chooseCascade (w : World) : World :=
  if w.app.cascade_name = "" then
    ⟨{ w.app with cascade_name := defaultCascade },
      w.log ++ [.cout "Using default cascade file...\n"]⟩
  else w

/-- Lines 72-85 of `App::process`: everything before the locals and the loop. -/
def App.processSetup (ext : Extern) (w : World) : Outcome Unit World :=
  let w1 := App.chooseCascade w
  if !ext.gpuLoad w1.app.cascade_name || !ext.cpuLoad w1.app.cascade_name then
    .threw (THROW_EXCEPTION
      ("Could not load cascade classifier [" ++ w1.app.cascade_name ++ "]")) w1
  else if w1.app.sources = [] then
    let w2 : World := ⟨w1.app, w1.log ++ [.cout "Using default frames source...\n"]⟩
    match newVideoSource ext defaultVideo with
    | .error e => .threw e w2
    | .ok src => .ret () ⟨{ w2.app with sources := w2.app.sources ++ [src] }, w2.log⟩
  else .ret () w1

/-- The method `App::process` (lines 70-155) on a finite supply of inputs. -/
def App.process (ext : Extern) (inputs : List Input) (w : World) :
    Outcome Unit (World × Locals) :=
  match App.processSetup ext w with
  | .ret _ w1 => App.loop ext inputs w1 Locals.init
  | .threw e w1 => .threw e (w1, Locals.init)
  | .undefined => .undefined

/-- The rectangles drawn according to a log. -/
def drawn (log : List Event) : List Rect :=
  log.filterMap fun e => match e with
    | .rectangle r => some r
    | _ => none

/-- The detector calls recorded in a log, in order. -/
def detectorCalls (log : List Event) : List Event :=
  log.filter fun e => match e with
    | .gpuDetect _ => true
    | .cpuDetect _ => true
    | _ => false

/-- The frames pulled according to a log. -/
def pulled (log : List Event) : List FrameSource :=
  log.filterMap fun e => match e with
    | .next src => some src
    | _ => none


/-- An outside world for the worked examples: Escape is the one key the base class
handles, every file opens, and the detectors find nothing. -/
def demoExtern : Extern :=
  { baseProcessKey := fun key b =>
      if key % 256 = 27 then (true, { b with exited := true }) else (false, b)
    videoOpens := fun _ => true
    gpuLoad := fun _ => true
    cpuLoad := fun _ => true
    classifierSize := ⟨20, 20⟩
    gpuDetect := fun _ => (0, [])
    cpuDetect := fun _ => [] }

/-- A freshly constructed application with two sources given on the command line. -/
def demoWorld : World :=
  ⟨App.new ⟨false, [⟨"a.avi"⟩, ⟨"b.avi"⟩]⟩, []⟩


/-- The demo world on a machine where no video file can be opened. -/
def noVideoExtern : Extern :=
  { demoExtern with videoOpens := fun _ => false }

/-- A freshly constructed application started without any argument. -/
def freshWorld : World :=
  ⟨App.new ⟨false, []⟩, []⟩

/-- A 10x10 colour frame. -/
def demoFrame : Mat :=
  { cols := 10, rows := 10, channels := 3, data := .captured 0 }

/-- An iteration input: the 10x10 colour frame, the key `N`, and two rates. -/
def demoInput : Input :=
  { frame := demoFrame, key := 78, proc_fps := 30, total_fps := 25 }

/-- A 4x4 image with two channels. -/
def twoChannelFrame : Mat :=
  { cols := 4, rows := 4, channels := 2, data := .captured 1 }

/-- The demo world with a GPU detector that reports two faces in a buffer of three
columns. -/
def twoFacesExtern : Extern :=
  { demoExtern with
    gpuDetect := fun _ => (2, [⟨1, 1, 5, 5⟩, ⟨2, 2, 6, 6⟩, ⟨0, 0, 0, 0⟩]) }

/-- Locals left by an earlier frame on which three faces were found. -/
def staleLocals : Locals :=
  { Locals.init with faces := [⟨7, 7, 3, 3⟩, ⟨8, 8, 3, 3⟩, ⟨9, 9, 3, 3⟩] }

theorem ulp_pos (x : ℚ) : 0 < ulp x := by
  unfold ulp; positivity

/-- Rounding to the nearest integer moves a number by at most one half. -/
theorem roundHalfEven_err (x : ℚ) : |(roundHalfEven x : ℚ) - x| ≤ 1 / 2 := by
  unfold roundHalfEven
  have h1 := Int.floor_le x
  have h2 := Int.lt_floor_add_one x
  simp only
  split_ifs with a b c
  · rw [abs_le]; constructor <;> linarith
  · rw [abs_le]; push_cast; constructor <;> linarith
  · rw [abs_le]; constructor <;> linarith
  · rw [abs_le]; push_cast; constructor <;> linarith

theorem floor_le_roundHalfEven (x : ℚ) : ⌊x⌋ ≤ roundHalfEven x := by
  unfold roundHalfEven
  simp only
  split_ifs <;> omega

/-- The binade of a positive number. -/
theorem log_two_eq {x : ℚ} {e : ℤ} (h1 : (2 : ℚ) ^ e ≤ x) (h2 : x < (2 : ℚ) ^ (e + 1)) :
    Int.log 2 x = e := by
  have hx : 0 < x := lt_of_lt_of_le (by positivity) h1
  have a : e ≤ Int.log 2 x :=
    (Int.zpow_le_iff_le_log (by norm_num) hx).mp (by exact_mod_cast h1)
  have b : Int.log 2 x < e + 1 :=
    (Int.lt_zpow_iff_log_lt (by norm_num) hx).mp (by exact_mod_cast h2)
  omega

/-- Evaluation of `roundDouble` in a known binade of the normal range. -/
theorem roundDouble_eq {x : ℚ} (e m : ℤ) (he : -1022 ≤ e) (h1 : (2 : ℚ) ^ e ≤ |x|)
    (h2 : |x| < (2 : ℚ) ^ (e + 1)) (hm : roundHalfEven (x / (2 : ℚ) ^ (e - 52)) = m) :
    roundDouble x = m * (2 : ℚ) ^ (e - 52) := by
  unfold roundDouble ulp
  rw [log_two_eq h1 h2, max_eq_left he, hm]

theorem roundDouble_zero : roundDouble 0 = 0 := by
  simp [roundDouble, roundHalfEven]

/-- In the normal range rounding to a `double` has relative error at most `2 ^ (-53)`. -/
theorem roundDouble_err {x : ℚ} (hx : (2 : ℚ) ^ (-1022 : ℤ) ≤ |x|) :
    |roundDouble x - x| ≤ |x| / 2 ^ 53 := by
  have hpos : 0 < |x| := lt_of_lt_of_le (by positivity) hx
  have hlog : (-1022 : ℤ) ≤ Int.log 2 |x| :=
    (Int.zpow_le_iff_le_log (by norm_num) hpos).mp (by exact_mod_cast hx)
  have hle : (2 : ℚ) ^ (Int.log 2 |x|) ≤ |x| := by
    have := Int.zpow_log_le_self (b := 2) (r := |x|) (by norm_num) hpos
    exact_mod_cast this
  have hu : ulp x = (2 : ℚ) ^ (Int.log 2 |x|) / 2 ^ 52 := by
    unfold ulp
    rw [max_eq_left hlog, zpow_sub₀ (by norm_num)]
    norm_num
  have hq := ulp_pos x
  have herr := roundHalfEven_err (x / ulp x)
  have : roundDouble x - x = ((roundHalfEven (x / ulp x) : ℚ) - x / ulp x) * ulp x := by
    unfold roundDouble
    field_simp
  rw [this, abs_mul, abs_of_pos hq]
  calc |(roundHalfEven (x / ulp x) : ℚ) - x / ulp x| * ulp x ≤ 1 / 2 * ulp x := by
        exact mul_le_mul_of_nonneg_right herr hq.le
    _ = (2 : ℚ) ^ (Int.log 2 |x|) / 2 ^ 53 := by rw [hu]; ring
    _ ≤ |x| / 2 ^ 53 := by
        apply div_le_div_of_nonneg_right hle (by positivity)

/-- The `double` written `1.4`. -/
theorem double_1_4 : roundDouble (14 / 10) = 3152519739159347 / 2251799813685248 := by
  rw [roundDouble_eq 0 6305039478318694 (by norm_num) (by norm_num [abs_of_pos])
    (by norm_num [abs_of_pos]) (by norm_num [roundHalfEven])]
  norm_num

/-- Ten times the `double` 1.4 is the `double` 14. -/
theorem ten_times_scale :
    fmul (10)
        (3152519739159347 / 2251799813685248) =
      14 := by
  unfold fmul
  rw [roundDouble_eq 3 7881299347898368 (by norm_num) (by norm_num [abs_of_pos])
    (by norm_num [abs_of_pos]) (by norm_num [roundHalfEven])]
  norm_num
/-! ## Key handler: one equation per branch -/

theorem processKey_base {ext : Extern} {key : Int} {w : World}
    (hb : (ext.baseProcessKey key w.app.toBaseApp).1 = true) :
    App.processKey ext key w = .ret true
      { w with app := { w.app with toBaseApp := (ext.baseProcessKey key w.app.toBaseApp).2 } } := by
  simp [App.processKey, hb]

theorem processKey_space {ext : Extern} {key : Int} {w : World}
    (hb : (ext.baseProcessKey key w.app.toBaseApp).1 = false)
    (hc : toupper (key % 256) = 32) :
    App.processKey ext key w = .ret true
      ⟨{ w.app with toBaseApp := (ext.baseProcessKey key w.app.toBaseApp).2,
                    useGPU := !w.app.useGPU },
        w.log ++ [.cout ("Switched to " ++ (if (!w.app.useGPU) = true then "CUDA" else "CPU")
          ++ " mode\n")]⟩ := by
  simp [App.processKey, hb, hc]

theorem processKey_H {ext : Extern} {key : Int} {w : World}
    (hb : (ext.baseProcessKey key w.app.toBaseApp).1 = false)
    (hc : toupper (key % 256) = 72) :
    App.processKey ext key w = .ret true
      ⟨{ w.app with toBaseApp := (ext.baseProcessKey key w.app.toBaseApp).2,
                    showHelp := !w.app.showHelp }, w.log⟩ := by
  simp [App.processKey, hb, hc]

theorem processKey_1 {ext : Extern} {key : Int} {w : World}
    (hb : (ext.baseProcessKey key w.app.toBaseApp).1 = false)
    (hc : toupper (key % 256) = 49) :
    App.processKey ext key w = .ret true
      ⟨{ w.app with toBaseApp := (ext.baseProcessKey key w.app.toBaseApp).2,
                    scaleFactor := fmul w.app.scaleFactor (roundDouble (105 / 100)) },
        w.log ++ [.coutScale (fmul w.app.scaleFactor (roundDouble (105 / 100)))]⟩ := by
  simp [App.processKey, hb, hc]

theorem processKey_Q {ext : Extern} {key : Int} {w : World}
    (hb : (ext.baseProcessKey key w.app.toBaseApp).1 = false)
    (hc : toupper (key % 256) = 81) :
    App.processKey ext key w = .ret true
      ⟨{ w.app with toBaseApp := (ext.baseProcessKey key w.app.toBaseApp).2,
                    scaleFactor := fdiv w.app.scaleFactor (roundDouble (105 / 100)) },
        w.log ++ [.coutScale (fdiv w.app.scaleFactor (roundDouble (105 / 100)))]⟩ := by
  simp [App.processKey, hb, hc]

theorem processKey_M {ext : Extern} {key : Int} {w : World}
    (hb : (ext.baseProcessKey key w.app.toBaseApp).1 = false)
    (hc : toupper (key % 256) = 77) :
    App.processKey ext key w = .ret true
      ⟨{ w.app with toBaseApp := (ext.baseProcessKey key w.app.toBaseApp).2,
                    findLargestObject := !w.app.findLargestObject },
        w.log ++ [.cout (if (!w.app.findLargestObject) = true then "OneFace mode\n"
          else "MultiFace mode\n")]⟩ := by
  simp [App.processKey, hb, hc]

theorem processKey_F {ext : Extern} {key : Int} {w : World}
    (hb : (ext.baseProcessKey key w.app.toBaseApp).1 = false)
    (hc : toupper (key % 256) = 70) :
    App.processKey ext key w = .ret true
      ⟨{ w.app with toBaseApp := (ext.baseProcessKey key w.app.toBaseApp).2,
                    filterRects := !w.app.filterRects },
        w.log ++ [.cout (if (!w.app.filterRects) = true then "Enable rectangles filter\n"
          else "Disable rectangles filter\n")]⟩ := by
  simp [App.processKey, hb, hc]

theorem processKey_N {ext : Extern} {key : Int} {w : World}
    (hb : (ext.baseProcessKey key w.app.toBaseApp).1 = false)
    (hc : toupper (key % 256) = 78)
    (hs : (ext.baseProcessKey key w.app.toBaseApp).2.sources ≠ []) :
    ∃ src, App.processKey ext key w = .ret true
      ⟨{ w.app with
          toBaseApp := (ext.baseProcessKey key w.app.toBaseApp).2,
          curSource := (w.app.curSource + 1) % 2 ^ 64 %
            (ext.baseProcessKey key w.app.toBaseApp).2.sources.length },
        w.log ++ [.reset src, .coutSource ((w.app.curSource + 1) % 2 ^ 64 %
            (ext.baseProcessKey key w.app.toBaseApp).2.sources.length)]⟩ := by
  have hlen : 0 < (ext.baseProcessKey key w.app.toBaseApp).2.sources.length :=
    List.length_pos.mpr hs
  have hlt : (w.app.curSource + 1) % 2 ^ 64 %
      (ext.baseProcessKey key w.app.toBaseApp).2.sources.length <
      (ext.baseProcessKey key w.app.toBaseApp).2.sources.length := Nat.mod_lt _ hlen
  obtain ⟨src, hsrc⟩ : ∃ src, (ext.baseProcessKey key w.app.toBaseApp).2.sources[
      (w.app.curSource + 1) % 2 ^ 64 %
        (ext.baseProcessKey key w.app.toBaseApp).2.sources.length]? = some src :=
    ⟨_, List.getElem?_eq_getElem hlt⟩
  refine ⟨src, ?_⟩
  norm_num at hsrc
  simp [App.processKey, hb, hc, hs, hsrc]

theorem processKey_other {ext : Extern} {key : Int} {w : World}
    (hb : (ext.baseProcessKey key w.app.toBaseApp).1 = false)
    (hc : toupper (key % 256) ∉ [32, 72, 49, 81, 77, 70, 78]) :
    App.processKey ext key w = .ret false
      { w with app := { w.app with toBaseApp := (ext.baseProcessKey key w.app.toBaseApp).2 } } := by
  simp only [List.mem_cons, List.mem_singleton, List.not_mem_nil, or_false, not_or] at hc
  obtain ⟨h1, h2, h3, h4, h5, h6, h7⟩ := hc
  simp [App.processKey, hb, h1, h2, h3, h4, h5, h6, h7]

/-- C1: `App::processKey` changes only the field tied to the key. It returns for every
key (for the next-source key, given a non-empty list of sources); the base part of the
object is left as `BaseApp::processKey` left it, so the list of sources is unchanged
whenever the base class did not change it; `cascade_name` is never changed; a key the
base class handles changes no field of `App`; otherwise space negates `useGPU` only,
H negates `showHelp` only, 1 and Q change `scaleFactor` only, M negates
`findLargestObject` only, F negates `filterRects` only, N changes `curSource` only, and
any other key changes nothing. -/
theorem processKey_frame (ext : Extern) (key : Int) (w : World)
    (hsrc : (ext.baseProcessKey key w.app.toBaseApp).1 = false →
      toupper (key % 256) = 78 →
      (ext.baseProcessKey key w.app.toBaseApp).2.sources ≠ []) :
    ∃ r w1, App.processKey ext key w = .ret r w1 ∧
      w1.app.toBaseApp = (ext.baseProcessKey key w.app.toBaseApp).2 ∧
      w1.app.cascade_name = w.app.cascade_name ∧
      ((ext.baseProcessKey key w.app.toBaseApp).2.sources = w.app.sources →
        w1.app.sources = w.app.sources) ∧
      ((ext.baseProcessKey key w.app.toBaseApp).1 = true →
        w1.app = { w.app with toBaseApp := (ext.baseProcessKey key w.app.toBaseApp).2 }) ∧
      ((ext.baseProcessKey key w.app.toBaseApp).1 = false →
        (toupper (key % 256) = 32 →
          w1.app = { w.app with toBaseApp := (ext.baseProcessKey key w.app.toBaseApp).2,
                                useGPU := !w.app.useGPU }) ∧
        (toupper (key % 256) = 72 →
          w1.app = { w.app with toBaseApp := (ext.baseProcessKey key w.app.toBaseApp).2,
                                showHelp := !w.app.showHelp }) ∧
        (toupper (key % 256) = 49 ∨ toupper (key % 256) = 81 →
          w1.app = { w.app with toBaseApp := (ext.baseProcessKey key w.app.toBaseApp).2,
                                scaleFactor := w1.app.scaleFactor }) ∧
        (toupper (key % 256) = 77 →
          w1.app = { w.app with toBaseApp := (ext.baseProcessKey key w.app.toBaseApp).2,
                                findLargestObject := !w.app.findLargestObject }) ∧
        (toupper (key % 256) = 70 →
          w1.app = { w.app with toBaseApp := (ext.baseProcessKey key w.app.toBaseApp).2,
                                filterRects := !w.app.filterRects }) ∧
        (toupper (key % 256) = 78 →
          w1.app = { w.app with toBaseApp := (ext.baseProcessKey key w.app.toBaseApp).2,
                                curSource := w1.app.curSource }) ∧
        (toupper (key % 256) ∉ [32, 72, 49, 81, 77, 70, 78] →
          w1.app = { w.app with toBaseApp := (ext.baseProcessKey key w.app.toBaseApp).2 })) := by
  by_cases hb : (ext.baseProcessKey key w.app.toBaseApp).1 = true
  · exact ⟨_, _, processKey_base hb, rfl, rfl, id, fun _ => rfl, fun h => by simp [hb] at h⟩
  have hb1 : (ext.baseProcessKey key w.app.toBaseApp).1 = false := by simpa using hb
  by_cases h32 : toupper (key % 256) = 32
  · exact ⟨_, _, processKey_space hb1 h32, rfl, rfl, id, fun h => absurd h hb,
      fun _ => by simp [h32]⟩
  by_cases h72 : toupper (key % 256) = 72
  · exact ⟨_, _, processKey_H hb1 h72, rfl, rfl, id, fun h => absurd h hb,
      fun _ => by simp [h72]⟩
  by_cases h49 : toupper (key % 256) = 49
  · exact ⟨_, _, processKey_1 hb1 h49, rfl, rfl, id, fun h => absurd h hb,
      fun _ => by simp [h49]⟩
  by_cases h81 : toupper (key % 256) = 81
  · exact ⟨_, _, processKey_Q hb1 h81, rfl, rfl, id, fun h => absurd h hb,
      fun _ => by simp [h81]⟩
  by_cases h77 : toupper (key % 256) = 77
  · exact ⟨_, _, processKey_M hb1 h77, rfl, rfl, id, fun h => absurd h hb,
      fun _ => by simp [h77]⟩
  by_cases h70 : toupper (key % 256) = 70
  · exact ⟨_, _, processKey_F hb1 h70, rfl, rfl, id, fun h => absurd h hb,
      fun _ => by simp [h70]⟩
  by_cases h78 : toupper (key % 256) = 78
  · obtain ⟨src, h⟩ := processKey_N hb1 h78 (hsrc hb1 h78)
    exact ⟨_, _, h, rfl, rfl, id, fun h => absurd h hb, fun _ => by simp [h78]⟩
  · have hc : toupper (key % 256) ∉ [32, 72, 49, 81, 77, 70, 78] := by
      simp [h32, h72, h49, h81, h77, h70, h78]
    exact ⟨_, _, processKey_other hb1 hc, rfl, rfl, id, fun h => absurd h hb,
      fun _ => by simp [h32, h72, h49, h81, h77, h70, h78]⟩

/-- C1, worked example: in the demo world the key `n` (110) moves `curSource` and leaves
every other field, the sources and `cascade_name` included, as it was. -/
theorem processKey_frame_witness :
    ((demoExtern.baseProcessKey 110 demoWorld.app.toBaseApp).1 = false →
      toupper (110 % 256) = 78 →
      (demoExtern.baseProcessKey 110 demoWorld.app.toBaseApp).2.sources ≠ []) ∧
    ∃ r w1, App.processKey demoExtern 110 demoWorld = .ret r w1 ∧
      w1.app = { demoWorld.app with curSource := w1.app.curSource } := by
  have hsrc : (demoExtern.baseProcessKey 110 demoWorld.app.toBaseApp).1 = false →
      toupper (110 % 256) = 78 →
      (demoExtern.baseProcessKey 110 demoWorld.app.toBaseApp).2.sources ≠ [] := by decide
  obtain ⟨r, w1, h1, -, -, -, -, h6⟩ := processKey_frame demoExtern 110 demoWorld hsrc
  exact ⟨hsrc, r, w1, h1, (h6 rfl).2.2.2.2.2.1 (by decide)⟩

theorem press_N {ext : Extern} {key : Int} {w : World}
    (hb : ext.baseProcessKey key w.app.toBaseApp = (false, w.app.toBaseApp))
    (hc : toupper (key % 256) = 78) (hs : w.app.sources ≠ []) :
    ∃ w1, App.processKey ext key w = .ret true w1 ∧
      w1.app = { w.app with
        curSource := (w.app.curSource + 1) % 2 ^ 64 % w.app.sources.length } := by
  have hb1 : (ext.baseProcessKey key w.app.toBaseApp).1 = false := by rw [hb]
  have hs1 : (ext.baseProcessKey key w.app.toBaseApp).2.sources ≠ [] := by rw [hb]; exact hs
  obtain ⟨src, h⟩ := processKey_N hb1 hc hs1
  rw [hb] at h
  exact ⟨_, h, rfl⟩

/-- The key handler keeps `curSource` in range when the base class keeps the sources. -/
theorem processKey_keeps_range {ext : Extern}
    (hbase : ∀ k b, (ext.baseProcessKey k b).2.sources = b.sources)
    (key : Int) (w : World) (hw : w.app.curSource < w.app.sources.length) :
    ∃ r w1, App.processKey ext key w = .ret r w1 ∧
      w1.app.curSource < w1.app.sources.length := by
  have hs : (ext.baseProcessKey key w.app.toBaseApp).2.sources = w.app.sources :=
    hbase key w.app.toBaseApp
  have hne : (ext.baseProcessKey key w.app.toBaseApp).2.sources ≠ [] := by
    rw [hs]; exact List.ne_nil_of_length_pos (Nat.zero_lt_of_lt hw)
  by_cases hb : (ext.baseProcessKey key w.app.toBaseApp).1 = true
  · exact ⟨_, _, processKey_base hb, by simpa [hs] using hw⟩
  have hb1 : (ext.baseProcessKey key w.app.toBaseApp).1 = false := by simpa using hb
  by_cases h32 : toupper (key % 256) = 32
  · exact ⟨_, _, processKey_space hb1 h32, by simpa [hs] using hw⟩
  by_cases h72 : toupper (key % 256) = 72
  · exact ⟨_, _, processKey_H hb1 h72, by simpa [hs] using hw⟩
  by_cases h49 : toupper (key % 256) = 49
  · exact ⟨_, _, processKey_1 hb1 h49, by simpa [hs] using hw⟩
  by_cases h81 : toupper (key % 256) = 81
  · exact ⟨_, _, processKey_Q hb1 h81, by simpa [hs] using hw⟩
  by_cases h77 : toupper (key % 256) = 77
  · exact ⟨_, _, processKey_M hb1 h77, by simpa [hs] using hw⟩
  by_cases h70 : toupper (key % 256) = 70
  · exact ⟨_, _, processKey_F hb1 h70, by simpa [hs] using hw⟩
  by_cases h78 : toupper (key % 256) = 78
  · obtain ⟨src, h⟩ := processKey_N hb1 h78 hne
    exact ⟨_, _, h, Nat.mod_lt _ (List.length_pos.mpr hne)⟩
  · have hc : toupper (key % 256) ∉ [32, 72, 49, 81, 77, 70, 78] := by
      simp [h32, h72, h49, h81, h77, h70, h78]
    exact ⟨_, _, processKey_other hb1 hc, by simpa [hs] using hw⟩

theorem processKey_ret_range {ext : Extern}
    (hbase : ∀ k b, (ext.baseProcessKey k b).2.sources = b.sources)
    {key : Int} {w w1 : World} {r : Bool} (hk : App.processKey ext key w = .ret r w1)
    (hw : w.app.curSource < w.app.sources.length) :
    w1.app.curSource < w1.app.sources.length := by
  obtain ⟨r2, w2, h1, h2⟩ := processKey_keeps_range hbase key w hw
  rw [h1] at hk
  simp only [Outcome.ret.injEq] at hk
  rw [← hk.2]
  exact h2

theorem processKey_defined {ext : Extern}
    (hbase : ∀ k b, (ext.baseProcessKey k b).2.sources = b.sources)
    {key : Int} {w : World} (hk : App.processKey ext key w = .undefined)
    (hw : w.app.curSource < w.app.sources.length) : False := by
  obtain ⟨r2, w2, h1, -⟩ := processKey_keeps_range hbase key w hw
  rw [h1] at hk
  simp at hk

/-- One iteration never indexes out of range and keeps `curSource` in range. -/
theorem iteration_inv {ext : Extern}
    (hbase : ∀ k b, (ext.baseProcessKey k b).2.sources = b.sources)
    (inp : Input) (w : World) (l : Locals) (hw : w.app.curSource < w.app.sources.length) :
    App.iteration ext inp w l ≠ .undefined ∧
      ∀ st, App.iteration ext inp w l = .ret () st →
        st.1.app.curSource < st.1.app.sources.length := by
  unfold App.iteration
  simp only [List.getElem?_eq_getElem hw]
  split
  · simp
  · split
    · next r w1 hk =>
      simp only [ne_eq, not_false_eq_true, Outcome.ret.injEq, true_and, reduceCtorEq]
      rintro st rfl
      exact processKey_ret_range hbase hk hw
    · simp
    · next hk => exact (processKey_defined hbase hk hw).elim

/-- The loop never indexes out of range and keeps `curSource` in range. -/
theorem loop_inv {ext : Extern}
    (hbase : ∀ k b, (ext.baseProcessKey k b).2.sources = b.sources)
    (inputs : List Input) :
    ∀ (w : World) (l : Locals), w.app.curSource < w.app.sources.length →
      App.loop ext inputs w l ≠ .undefined ∧
        ∀ st, App.loop ext inputs w l = .ret () st →
          st.1.app.curSource < st.1.app.sources.length := by
  induction inputs with
  | nil =>
    intro w l hw
    simp only [App.loop, ne_eq, not_false_eq_true, Outcome.ret.injEq, true_and, reduceCtorEq]
    rintro st rfl
    exact hw
  | cons inp rest ih =>
    intro w l hw
    unfold App.loop
    by_cases hex : w.app.exited = true
    · simp only [hex, if_true, ne_eq, not_false_eq_true, Outcome.ret.injEq, true_and,
        reduceCtorEq]
      rintro st rfl
      exact hw
    · simp only [hex, if_false]
      obtain ⟨hne, hret⟩ := iteration_inv hbase inp w l hw
      cases hit : App.iteration ext inp w l with
      | ret r st => exact ih st.1 st.2 (hret st (by rw [hit]))
      | threw e st => simp
      | undefined => exact absurd hit hne

/-! ## Setup of `App::process` -/

theorem chooseCascade_name (w : World) :
    (App.chooseCascade w).app.cascade_name =
      (if w.app.cascade_name = "" then defaultCascade else w.app.cascade_name) := by
  unfold App.chooseCascade
  split_ifs with h
  · rfl
  · rfl

theorem chooseCascade_sources (w : World) :
    (App.chooseCascade w).app.sources = w.app.sources := by
  unfold App.chooseCascade
  split_ifs <;> rfl

theorem chooseCascade_curSource (w : World) :
    (App.chooseCascade w).app.curSource = w.app.curSource := by
  unfold App.chooseCascade
  split_ifs <;> rfl

theorem chooseCascade_pulled (w : World) :
    pulled (App.chooseCascade w).log = pulled w.log := by
  unfold App.chooseCascade
  split_ifs
  · simp [pulled, List.filterMap_append]
  · rfl

theorem processSetup_loadFail {ext : Extern} {w : World}
    (h : ext.gpuLoad (App.chooseCascade w).app.cascade_name = false ∨
      ext.cpuLoad (App.chooseCascade w).app.cascade_name = false) :
    App.processSetup ext w = .threw (.runtime ("Could not load cascade classifier [" ++
      (App.chooseCascade w).app.cascade_name ++ "]")) (App.chooseCascade w) := by
  unfold App.processSetup
  rcases h with h | h <;> simp [h, THROW_EXCEPTION]

theorem processSetup_sources {ext : Extern} {w : World}
    (hg : ext.gpuLoad (App.chooseCascade w).app.cascade_name = true)
    (hc : ext.cpuLoad (App.chooseCascade w).app.cascade_name = true)
    (hs : w.app.sources ≠ []) :
    App.processSetup ext w = .ret () (App.chooseCascade w) := by
  have hs1 : (App.chooseCascade w).app.sources ≠ [] := by
    rw [chooseCascade_sources]; exact hs
  unfold App.processSetup
  simp [hg, hc, hs1]

theorem processSetup_default {ext : Extern} {w : World}
    (hg : ext.gpuLoad (App.chooseCascade w).app.cascade_name = true)
    (hc : ext.cpuLoad (App.chooseCascade w).app.cascade_name = true)
    (hs : w.app.sources = []) (hv : ext.videoOpens defaultVideo = true) :
    App.processSetup ext w = .ret ()
      ⟨{ (App.chooseCascade w).app with sources := [⟨defaultVideo⟩] },
        (App.chooseCascade w).log ++ [.cout "Using default frames source...\n"]⟩ := by
  have hs1 : (App.chooseCascade w).app.sources = [] := by
    rw [chooseCascade_sources]; exact hs
  unfold App.processSetup
  simp [hg, hc, hs1, newVideoSource, hv]

theorem processSetup_noVideo {ext : Extern} {w : World}
    (hg : ext.gpuLoad (App.chooseCascade w).app.cascade_name = true)
    (hc : ext.cpuLoad (App.chooseCascade w).app.cascade_name = true)
    (hs : w.app.sources = []) (hv : ext.videoOpens defaultVideo = false) :
    App.processSetup ext w = .threw (.videoSource defaultVideo)
      ⟨(App.chooseCascade w).app,
        (App.chooseCascade w).log ++ [.cout "Using default frames source...\n"]⟩ := by
  have hs1 : (App.chooseCascade w).app.sources = [] := by
    rw [chooseCascade_sources]; exact hs
  unfold App.processSetup
  simp [hg, hc, hs1, newVideoSource, hv]

/-- The faces update fails only with the two library errors. -/
theorem updateFaces_error {faces buf : List Rect} {n : Int} {e : Exn}
    (h : updateFaces faces n buf = .error e) : e = .lengthError ∨ e = .cvAssert := by
  unfold updateFaces at h
  split_ifs at h <;> simp_all

theorem detect_error {ext : Extern} {s : App} {l : Locals} {e : Exn}
    (h : (App.detect ext s l).2 = .error e) : e = .lengthError ∨ e = .cvAssert := by
  unfold App.detect at h
  split_ifs at h
  · simp only at h
    split at h
    · next e1 he =>
      simp only [Except.error.injEq] at h
      subst h
      exact updateFaces_error he
    · simp at h

/-- The key handler does not throw. -/
theorem processKey_not_threw (ext : Extern) (key : Int) (w : World) (e : Exn) (w1 : World) :
    App.processKey ext key w ≠ .threw e w1 := by
  by_cases hb : (ext.baseProcessKey key w.app.toBaseApp).1 = true
  · rw [processKey_base hb]; simp
  have hb1 : (ext.baseProcessKey key w.app.toBaseApp).1 = false := by simpa using hb
  by_cases h32 : toupper (key % 256) = 32
  · rw [processKey_space hb1 h32]; simp
  by_cases h72 : toupper (key % 256) = 72
  · rw [processKey_H hb1 h72]; simp
  by_cases h49 : toupper (key % 256) = 49
  · rw [processKey_1 hb1 h49]; simp
  by_cases h81 : toupper (key % 256) = 81
  · rw [processKey_Q hb1 h81]; simp
  by_cases h77 : toupper (key % 256) = 77
  · rw [processKey_M hb1 h77]; simp
  by_cases h70 : toupper (key % 256) = 70
  · rw [processKey_F hb1 h70]; simp
  by_cases h78 : toupper (key % 256) = 78
  · by_cases hs : (ext.baseProcessKey key w.app.toBaseApp).2.sources = []
    · simp [App.processKey, hb1, h78, hs]
    · obtain ⟨src, h⟩ := processKey_N hb1 h78 hs
      rw [h]; simp
  · have hc : toupper (key % 256) ∉ [32, 72, 49, 81, 77, 70, 78] := by
      simp [h32, h72, h49, h81, h77, h70, h78]
    rw [processKey_other hb1 hc]; simp

theorem iteration_threw {ext : Extern} {inp : Input} {w : World} {l : Locals} {e : Exn}
    {st : World × Locals} (h : App.iteration ext inp w l = .threw e st) :
    e = .lengthError ∨ e = .cvAssert := by
  unfold App.iteration at h
  simp only at h
  split at h
  · simp at h
  · split at h
    · next e1 he =>
      simp only [Outcome.threw.injEq] at h
      rw [← h.1]
      exact detect_error he
    · split at h
      · simp at h
      · next e1 w1 hk => exact absurd hk (processKey_not_threw _ _ _ _ _)
      · simp at h

theorem loop_threw {ext : Extern} (inputs : List Input) :
    ∀ (w : World) (l : Locals) (e : Exn) (st : World × Locals),
      App.loop ext inputs w l = .threw e st → e = .lengthError ∨ e = .cvAssert := by
  induction inputs with
  | nil => intro w l e st h; simp [App.loop] at h
  | cons inp rest ih =>
    intro w l e st h
    unfold App.loop at h
    split_ifs at h
    split at h
    · exact ih _ _ _ _ h
    · next e1 st1 hit =>
      simp only [Outcome.threw.injEq] at h
      rw [← h.1]
      exact iteration_threw hit
    · simp at h

/-- C3, as amended: the file loaded is `cascade_name`, or the default path when
`cascade_name` is empty; `App::process` throws "Could not load cascade classifier [file]",
with the sources untouched and no frame pulled, exactly when the GPU or the CPU classifier
fails to load that file; when both loads succeed and either a source is present or the
default video opens, the loop is entered with a non-empty list of sources; when both
loads succeed, no source is present and the default video does not open, the error of
the video source is thrown instead and the loop is not entered. -/
theorem process_setup_errors (ext : Extern) (inputs : List Input) (w : World) :
    (App.chooseCascade w).app.cascade_name =
      (if w.app.cascade_name = "" then "data/face_detect/haarcascade_frontalface_alt.xml"
       else w.app.cascade_name) ∧
    ((∃ st, App.process ext inputs w = .threw (.runtime ("Could not load cascade classifier ["
          ++ (App.chooseCascade w).app.cascade_name ++ "]")) st ∧
        st.1.app.sources = w.app.sources ∧ pulled st.1.log = pulled w.log) ↔
      (ext.gpuLoad (App.chooseCascade w).app.cascade_name = false ∨
        ext.cpuLoad (App.chooseCascade w).app.cascade_name = false)) ∧
    (ext.gpuLoad (App.chooseCascade w).app.cascade_name = true →
      ext.cpuLoad (App.chooseCascade w).app.cascade_name = true →
      (w.app.sources ≠ [] ∨ ext.videoOpens "data/face_detect/browser.flv" = true) →
      ∃ w1, App.processSetup ext w = .ret () w1 ∧ w1.app.sources ≠ [] ∧
        pulled w1.log = pulled w.log ∧
        App.process ext inputs w = App.loop ext inputs w1 Locals.init) ∧
    (ext.gpuLoad (App.chooseCascade w).app.cascade_name = true →
      ext.cpuLoad (App.chooseCascade w).app.cascade_name = true →
      w.app.sources = [] → ext.videoOpens "data/face_detect/browser.flv" = false →
      ∃ st, App.process ext inputs w =
          .threw (.videoSource "data/face_detect/browser.flv") st ∧
        st.1.app.sources = [] ∧ pulled st.1.log = pulled w.log) := by
  have hright : ext.gpuLoad (App.chooseCascade w).app.cascade_name = true →
      ext.cpuLoad (App.chooseCascade w).app.cascade_name = true →
      (w.app.sources ≠ [] ∨ ext.videoOpens defaultVideo = true) →
      ∃ w1, App.processSetup ext w = .ret () w1 ∧ w1.app.sources ≠ [] ∧
        pulled w1.log = pulled w.log ∧
        App.process ext inputs w = App.loop ext inputs w1 Locals.init := by
    intro hg hc hsv
    by_cases hs : w.app.sources = []
    · have hv : ext.videoOpens defaultVideo = true := hsv.resolve_left (fun h => h hs)
      refine ⟨_, processSetup_default hg hc hs hv, by simp, ?_, ?_⟩
      · rw [← chooseCascade_pulled w]; simp [pulled, List.filterMap_append]
      · simp [App.process, processSetup_default hg hc hs hv]
    · refine ⟨_, processSetup_sources hg hc hs, ?_, chooseCascade_pulled w, ?_⟩
      · rw [chooseCascade_sources]; exact hs
      · simp [App.process, processSetup_sources hg hc hs]
  have hnov : ext.gpuLoad (App.chooseCascade w).app.cascade_name = true →
      ext.cpuLoad (App.chooseCascade w).app.cascade_name = true →
      w.app.sources = [] → ext.videoOpens defaultVideo = false →
      ∃ st, App.process ext inputs w = .threw (.videoSource defaultVideo) st ∧
        st.1.app.sources = [] ∧ pulled st.1.log = pulled w.log := by
    intro hg hc hs hv
    refine ⟨_, by simp [App.process, processSetup_noVideo hg hc hs hv]; rfl, ?_, ?_⟩
    · simp [chooseCascade_sources, hs]
    · rw [← chooseCascade_pulled w]; simp [pulled, List.filterMap_append]
  refine ⟨chooseCascade_name w, ⟨?_, ?_⟩, hright, hnov⟩
  · rintro ⟨st, hst, -, -⟩
    by_contra hload
    simp only [not_or, Bool.not_eq_false] at hload
    obtain ⟨hg, hc⟩ := hload
    by_cases hsv : w.app.sources ≠ [] ∨ ext.videoOpens defaultVideo = true
    · obtain ⟨w1, -, -, -, hp⟩ := hright hg hc hsv
      rw [hp] at hst
      have := loop_threw inputs _ _ _ _ hst
      simp at this
    · simp only [not_or, not_not, Bool.not_eq_true] at hsv
      obtain ⟨st1, hp, -, -⟩ := hnov hg hc hsv.1 hsv.2
      rw [hp] at hst
      simp at hst
  · intro hload
    refine ⟨(App.chooseCascade w, Locals.init), ?_, chooseCascade_sources w,
      chooseCascade_pulled w⟩
    simp [App.process, processSetup_loadFail hload]

/-- C3, counterexample: started without arguments where both classifiers load the
default cascade but the default video cannot be opened, `App::process` throws although
no load failed, and the loop is never entered. -/
theorem process_setup_counterexample :
    noVideoExtern.gpuLoad (App.chooseCascade freshWorld).app.cascade_name = true ∧
    noVideoExtern.cpuLoad (App.chooseCascade freshWorld).app.cascade_name = true ∧
    App.process noVideoExtern [] freshWorld =
      .threw (.videoSource "data/face_detect/browser.flv")
        (⟨{ freshWorld.app with
              cascade_name := "data/face_detect/haarcascade_frontalface_alt.xml" },
          [.cout "Using default cascade file...\n",
           .cout "Using default frames source...\n"]⟩, Locals.init) ∧
    ¬ ∃ w1, App.processSetup noVideoExtern freshWorld = .ret () w1 := by
  refine ⟨rfl, rfl, rfl, ?_⟩
  rintro ⟨w1, h⟩
  have h1 : App.processSetup noVideoExtern freshWorld =
      .threw (.videoSource defaultVideo)
        ⟨(App.chooseCascade freshWorld).app,
          (App.chooseCascade freshWorld).log ++ [.cout "Using default frames source...\n"]⟩ :=
    processSetup_noVideo rfl rfl rfl rfl
  rw [h1] at h
  simp at h

/-- C3, worked example: in the demo world, started without arguments, the loop is entered
with the default video as the one source. -/
theorem process_setup_errors_witness :
    demoExtern.gpuLoad (App.chooseCascade freshWorld).app.cascade_name = true ∧
    demoExtern.cpuLoad (App.chooseCascade freshWorld).app.cascade_name = true ∧
    (freshWorld.app.sources ≠ [] ∨ demoExtern.videoOpens "data/face_detect/browser.flv" = true) ∧
    ∃ w1, App.processSetup demoExtern freshWorld = .ret () w1 ∧ w1.app.sources ≠ [] ∧
      pulled w1.log = pulled freshWorld.log ∧
      App.process demoExtern [] freshWorld = App.loop demoExtern [] w1 Locals.init :=
  ⟨rfl, rfl, Or.inr rfl,
    (process_setup_errors demoExtern [] freshWorld).2.2.1 rfl rfl (Or.inr rfl)⟩

/-! ## Cycling through the sources -/

/-- Pressing the next-source key `k` times adds `k` to the index, modulo the number of
sources. -/
theorem processKeys_next {ext : Extern} {key : Int} (hc : toupper (key % 256) = 78) (k : Nat) :
    ∀ w : World, ext.baseProcessKey key w.app.toBaseApp = (false, w.app.toBaseApp) →
      w.app.curSource < w.app.sources.length → w.app.sources.length < 2 ^ 64 →
      ∃ w1, App.processKeys ext (List.replicate k key) w = .ret true w1 ∧
        w1.app = { w.app with curSource := (w.app.curSource + k) % w.app.sources.length } := by
  induction k with
  | zero =>
    intro w _ hlt _
    exact ⟨w, rfl, by simp [Nat.mod_eq_of_lt hlt]⟩
  | succ k ih =>
    intro w hb hlt hsz
    have hs : w.app.sources ≠ [] := List.ne_nil_of_length_pos (Nat.zero_lt_of_lt hlt)
    obtain ⟨w1, e1, a1⟩ := press_N hb hc hs
    have hwrap : (w.app.curSource + 1) % 2 ^ 64 = w.app.curSource + 1 :=
      Nat.mod_eq_of_lt (by omega)
    rw [hwrap] at a1
    have hlen : w1.app.sources.length = w.app.sources.length := by rw [a1]
    have hcur : w1.app.curSource = (w.app.curSource + 1) % w.app.sources.length := by rw [a1]
    have hb1 : ext.baseProcessKey key w1.app.toBaseApp = (false, w1.app.toBaseApp) := by
      rw [a1]; exact hb
    have hlt1 : w1.app.curSource < w1.app.sources.length := by
      rw [hlen, hcur]; exact Nat.mod_lt _ (Nat.zero_lt_of_lt hlt)
    obtain ⟨w2, e2, a2⟩ := ih w1 hb1 hlt1 (by rw [hlen]; exact hsz)
    refine ⟨w2, ?_, ?_⟩
    · simp only [List.replicate_succ, App.processKeys, e1]
      exact e2
    · rw [a2, hlen, hcur, a1]
      simp only [App.mk.injEq, true_and, and_true]
      rw [Nat.mod_add_mod]
      congr 1
      omega

/-- C4: `curSource` starts at 0; on a non-empty list of fewer than 2^64 sources with
`curSource` in range, the next-source key sets `curSource` to
`(curSource + 1) mod sources.size()`, which is in range again; provided the base class
never changes the list of sources, a run of `App::process` from `curSource = 0` on any
inputs never indexes `sources` out of range and every state it reaches has `curSource`
in range; and pressing the next-source key `sources.size()` times gives back the
original record. -/
theorem curSource_in_range (ext : Extern) :
    (∀ base, (App.new base).curSource = 0) ∧
    (∀ (key : Int) (w : World),
      ext.baseProcessKey key w.app.toBaseApp = (false, w.app.toBaseApp) →
      toupper (key % 256) = 78 → w.app.sources ≠ [] →
      w.app.curSource < w.app.sources.length → w.app.sources.length < 2 ^ 64 →
      ∃ w1, App.processKey ext key w = .ret true w1 ∧ w1.app.sources = w.app.sources ∧
        w1.app.curSource = (w.app.curSource + 1) % w.app.sources.length ∧
        w1.app.curSource < w1.app.sources.length) ∧
    ((∀ k b, (ext.baseProcessKey k b).2.sources = b.sources) →
      ∀ (inputs : List Input) (w : World), w.app.curSource = 0 →
        App.process ext inputs w ≠ .undefined ∧
        ∀ st, App.process ext inputs w = .ret () st →
          st.1.app.curSource < st.1.app.sources.length) ∧
    (∀ (key : Int) (w : World),
      ext.baseProcessKey key w.app.toBaseApp = (false, w.app.toBaseApp) →
      toupper (key % 256) = 78 →
      w.app.curSource < w.app.sources.length → w.app.sources.length < 2 ^ 64 →
      ∃ w1, App.processKeys ext (List.replicate w.app.sources.length key) w = .ret true w1 ∧
        w1.app = w.app) := by
  refine ⟨fun _ => rfl, ?_, ?_, ?_⟩
  · intro key w hb hc hs hlt hsz
    obtain ⟨w1, e1, a1⟩ := press_N hb hc hs
    have hwrap : (w.app.curSource + 1) % 2 ^ 64 = w.app.curSource + 1 :=
      Nat.mod_eq_of_lt (by omega)
    rw [hwrap] at a1
    refine ⟨w1, e1, by rw [a1], by rw [a1], ?_⟩
    rw [a1]
    exact Nat.mod_lt _ (Nat.zero_lt_of_lt hlt)
  · intro hbase inputs w h0
    unfold App.process
    cases hset : App.processSetup ext w with
    | undefined =>
      exfalso
      unfold App.processSetup at hset
      simp only at hset
      split_ifs at hset
      split at hset <;> simp at hset
    | threw e w1 => simp
    | ret r w1 =>
      simp only
      apply loop_inv hbase inputs w1 Locals.init
      unfold App.processSetup at hset
      simp only at hset
      split_ifs at hset with h1 h2
      · split at hset
        · simp at hset
        · simp only [Outcome.ret.injEq, true_and] at hset
          rw [← hset]
          simp [chooseCascade_curSource, h0]
      · simp only [Outcome.ret.injEq, true_and] at hset
        rw [← hset, chooseCascade_curSource, h0]
        exact List.length_pos.mpr h2
  · intro key w hb hc hlt hsz
    obtain ⟨w1, e1, a1⟩ := processKeys_next hc w.app.sources.length w hb hlt hsz
    refine ⟨w1, e1, ?_⟩
    rw [a1, Nat.add_mod_right, Nat.mod_eq_of_lt hlt]

/-- C4, worked example: in the demo world with its two sources, the key `N` moves the
index from 0 to 1, two presses give back the original record, and a run over two
iterations with the key `N` ends with the index in range. -/
theorem curSource_in_range_witness :
    (∃ w1, App.processKey demoExtern 78 demoWorld = .ret true w1 ∧
      w1.app.sources = demoWorld.app.sources ∧
      w1.app.curSource = (demoWorld.app.curSource + 1) % demoWorld.app.sources.length ∧
      w1.app.curSource < w1.app.sources.length) ∧
    (∃ w1, App.processKeys demoExtern (List.replicate demoWorld.app.sources.length 78)
      demoWorld = .ret true w1 ∧ w1.app = demoWorld.app) ∧
    (∀ k b, (demoExtern.baseProcessKey k b).2.sources = b.sources) ∧
    App.process demoExtern [demoInput, demoInput] demoWorld ≠ .undefined :=
  have hbase : ∀ k b, (demoExtern.baseProcessKey k b).2.sources = b.sources := by
    intro k b
    simp only [demoExtern]
    split_ifs <;> rfl
  ⟨(curSource_in_range demoExtern).2.1 78 demoWorld rfl (by decide) (by decide)
      (by decide) (by decide),
    (curSource_in_range demoExtern).2.2.2 78 demoWorld rfl (by decide) (by decide)
      (by decide),
    hbase,
    ((curSource_in_range demoExtern).2.2.1 hbase [demoInput, demoInput] demoWorld rfl).1⟩

/-! ## Command line -/

/-- C2: `App::parseCmdArgs` on an argument vector of `argc` strings at an index
`0 ≤ i < argc`: when `argv[i]` is "--cascade" and `i + 1 < argc` it sets `cascade_name`
to `argv[i + 1]`, advances `i` by one and returns true; when `argv[i]` is "--cascade"
and it is the last argument it throws "Missing file name after --cascade" and leaves the
object, `cascade_name` included, unchanged; for any other `argv[i]` it returns false and
leaves `i` and the object unchanged. -/
theorem parseCmdArgs_cascade (i argc : Int) (argv : List String) (s : App)
    (hargc : argc = argv.length) (hint : argc < 2 ^ 31) (h0 : 0 ≤ i) (hi : i < argc) :
    ∃ arg, argAt argv i = some arg ∧
      (arg = "--cascade" → i + 1 < argc →
        ∃ name, argAt argv (i + 1) = some name ∧
          App.parseCmdArgs i argc argv s =
            .ret true ⟨i + 1, { s with cascade_name := name }⟩) ∧
      (arg = "--cascade" → i + 1 ≥ argc →
        App.parseCmdArgs i argc argv s =
          .threw (.runtime "Missing file name after --cascade") ⟨i + 1, s⟩) ∧
      (arg ≠ "--cascade" → App.parseCmdArgs i argc argv s = .ret false ⟨i, s⟩) := by
  have hlt : i.toNat < argv.length := by omega
  have harg : argAt argv i = some (argv[i.toNat]) := by
    simp [argAt, h0, List.getElem?_eq_getElem hlt]
  have hov : ¬ (2 : Int) ^ 31 ≤ i + 1 := by omega
  refine ⟨_, harg, ?_, ?_, ?_⟩
  · intro hc hnext
    have hlt1 : (i + 1).toNat < argv.length := by omega
    have harg1 : argAt argv (i + 1) = some (argv[(i + 1).toNat]) := by
      have h01 : 0 ≤ i + 1 := by omega
      simp [argAt, h01, List.getElem?_eq_getElem hlt1]
    refine ⟨_, harg1, ?_⟩
    unfold App.parseCmdArgs
    rw [harg]
    simp only [hc, if_true, hov, if_false, ge_iff_le, not_le.mpr hnext, harg1]
  · intro hc hlast
    unfold App.parseCmdArgs
    rw [harg]
    simp only [hc, if_true, hov, if_false, ge_iff_le, hlast, THROW_EXCEPTION]
    rfl
  · intro hc
    unfold App.parseCmdArgs
    rw [harg]
    simp only [hc, if_false]

/-- C2, worked example: on `demo --cascade my.xml` at index 1 the file name is taken and
the index moves to 2. -/
theorem parseCmdArgs_cascade_witness :
    ∃ arg, argAt ["demo", "--cascade", "my.xml"] 1 = some arg ∧
      (arg = "--cascade" → (1 : Int) + 1 < 3 →
        ∃ name, argAt ["demo", "--cascade", "my.xml"] (1 + 1) = some name ∧
          App.parseCmdArgs 1 3 ["demo", "--cascade", "my.xml"] freshWorld.app =
            .ret true ⟨1 + 1, { freshWorld.app with cascade_name := name }⟩) ∧
      (arg = "--cascade" → (1 : Int) + 1 ≥ 3 →
        App.parseCmdArgs 1 3 ["demo", "--cascade", "my.xml"] freshWorld.app =
          .threw (.runtime "Missing file name after --cascade") ⟨1 + 1, freshWorld.app⟩) ∧
      (arg ≠ "--cascade" →
        App.parseCmdArgs 1 3 ["demo", "--cascade", "my.xml"] freshWorld.app =
          .ret false ⟨1, freshWorld.app⟩) :=
  parseCmdArgs_cascade 1 3 ["demo", "--cascade", "my.xml"] freshWorld.app
    (by decide) (by decide) (by decide) (by decide)

/-! ## Frames -/

/-- Rounding never goes below the floor. -/
theorem floor_le_cvRound (x : ℚ) : ⌊x⌋ ≤ cvRound x :=
  floor_le_roundHalfEven x

/-- The `double` product of a non-negative integer with a `double` above 1, rounded to
an integer, is not below the integer. -/
theorem le_cvRound_fmul (n : Int) (scale : ℚ) (hn : 0 ≤ n) (hs : 1 + 1 / 2 ^ 52 ≤ scale) :
    n ≤ cvRound (fmul n scale) := by
  rcases eq_or_lt_of_le hn with h0 | hpos
  · rw [← h0]
    simp [fmul, roundDouble_zero, cvRound, roundHalfEven]
  · have h1 : (1 : ℚ) ≤ n := by exact_mod_cast hpos
    have hy : (n : ℚ) * (1 + 1 / 2 ^ 52) ≤ n * scale :=
      mul_le_mul_of_nonneg_left hs (by linarith)
    have hy0 : (0 : ℚ) < n * scale := by nlinarith
    have hnorm : (2 : ℚ) ^ (-1022 : ℤ) ≤ |(n : ℚ) * scale| := by
      rw [abs_of_pos hy0]
      have h : (2 : ℚ) ^ (-1022 : ℤ) ≤ 1 :=
        zpow_le_one_of_nonpos₀ (by norm_num : (1 : ℚ) ≤ 2) (by norm_num : (-1022 : ℤ) ≤ 0)
      nlinarith
    have e := roundDouble_err hnorm
    rw [abs_of_pos hy0, abs_le] at e
    have hlow : (n : ℚ) ≤ roundDouble (n * scale) := by
      have h2 : (n : ℚ) ≤ n * scale - n * scale / 2 ^ 53 := by
        have : (n : ℚ) * (1 + 1 / 2 ^ 52) - n * (1 + 1 / 2 ^ 52) / 2 ^ 53 ≤
            n * scale - n * scale / 2 ^ 53 := by
          have : (n : ℚ) * scale - n * scale / 2 ^ 53 = n * scale * (1 - 1 / 2 ^ 53) := by
            ring
          rw [this]
          have : (n : ℚ) * (1 + 1 / 2 ^ 52) - n * (1 + 1 / 2 ^ 52) / 2 ^ 53 =
              n * (1 + 1 / 2 ^ 52) * (1 - 1 / 2 ^ 53) := by ring
          rw [this]
          exact mul_le_mul_of_nonneg_right hy (by norm_num)
        have h3 : (n : ℚ) ≤ n * (1 + 1 / 2 ^ 52) - n * (1 + 1 / 2 ^ 52) / 2 ^ 53 := by
          have : (n : ℚ) * (1 + 1 / 2 ^ 52) - n * (1 + 1 / 2 ^ 52) / 2 ^ 53 - n =
              n * ((1 + 1 / 2 ^ 52) * (1 - 1 / 2 ^ 53) - 1) := by ring
          have hc : (0 : ℚ) ≤ (1 + 1 / 2 ^ 52) * (1 - 1 / 2 ^ 53) - 1 := by norm_num
          nlinarith [mul_nonneg (by linarith : (0 : ℚ) ≤ n) hc]
        linarith
      linarith [e.1]
    unfold fmul
    exact le_trans (Int.le_floor.mpr hlow) (floor_le_cvRound _)

theorem cvRound_ten_scaled : cvRound (fmul (10 : Int) (roundDouble (14 / 10))) = 14 := by
  rw [double_1_4]
  push_cast
  rw [ten_times_scale]
  norm_num [cvRound, roundHalfEven]

/-- C9, as amended: the resized image is the source itself when the scale is 1 and
otherwise `resize` of the source to width `cvRound(cols * scale)` and height
`cvRound(rows * scale)`, the products being `double` products; the gray image has the
size of the resized image; it is the BGR-to-gray conversion of a 3-channel resized
image, the BGRA-to-gray conversion of a 4-channel one, and the resized image itself for
every other channel count; it has a single channel when the source has 1, 3 or 4
channels, and otherwise the channel count of the source. -/
theorem resizeAndConvert_spec (src : Mat) (scale : ℚ) :
    (scale = 1 → (resizeAndConvert src scale).1 = src) ∧
    (scale ≠ 1 →
      (resizeAndConvert src scale).1 =
          resize src ⟨cvRound (fmul src.cols scale), cvRound (fmul src.rows scale)⟩ ∧
        (resizeAndConvert src scale).1.cols = cvRound (fmul src.cols scale) ∧
        (resizeAndConvert src scale).1.rows = cvRound (fmul src.rows scale)) ∧
    (resizeAndConvert src scale).1.channels = src.channels ∧
    (resizeAndConvert src scale).2.cols = (resizeAndConvert src scale).1.cols ∧
    (resizeAndConvert src scale).2.rows = (resizeAndConvert src scale).1.rows ∧
    ((resizeAndConvert src scale).1.channels = 3 →
      (resizeAndConvert src scale).2 =
        cvtColor (resizeAndConvert src scale).1 COLOR_BGR2GRAY) ∧
    ((resizeAndConvert src scale).1.channels = 4 →
      (resizeAndConvert src scale).2 =
        cvtColor (resizeAndConvert src scale).1 COLOR_BGRA2GRAY) ∧
    ((resizeAndConvert src scale).1.channels ≠ 3 →
      (resizeAndConvert src scale).1.channels ≠ 4 →
      (resizeAndConvert src scale).2 = (resizeAndConvert src scale).1) ∧
    (src.channels = 1 ∨ src.channels = 3 ∨ src.channels = 4 →
      (resizeAndConvert src scale).2.channels = 1) ∧
    (src.channels ≠ 3 → src.channels ≠ 4 →
      (resizeAndConvert src scale).2.channels = src.channels) := by
  have hch : (resizeAndConvert src scale).1.channels = src.channels := by
    unfold resizeAndConvert
    simp only
    split_ifs <;> rfl
  have hg : (resizeAndConvert src scale).2 =
      if (resizeAndConvert src scale).1.channels = 3 then
        cvtColor (resizeAndConvert src scale).1 COLOR_BGR2GRAY
      else if (resizeAndConvert src scale).1.channels = 4 then
        cvtColor (resizeAndConvert src scale).1 COLOR_BGRA2GRAY
      else (resizeAndConvert src scale).1 := rfl
  refine ⟨?_, ?_, hch, ?_, ?_, ?_, ?_, ?_, ?_, ?_⟩
  · intro h; simp [resizeAndConvert, h]
  · intro h; simp [resizeAndConvert, h, resize]
  · rw [hg]; split_ifs <;> rfl
  · rw [hg]; split_ifs <;> rfl
  · intro h; rw [hg, if_pos h]
  · intro h
    have h3 : (resizeAndConvert src scale).1.channels ≠ 3 := by rw [h]; decide
    rw [hg, if_neg h3, if_pos h]
  · intro h3 h4; rw [hg, if_neg h3, if_neg h4]
  · intro h
    rw [← hch] at h
    rw [hg]
    split_ifs with h3 h4
    · rfl
    · rfl
    · rcases h with h | h | h
      · exact h
      · exact absurd h h3
      · exact absurd h h4
  · intro h3 h4
    rw [← hch] at h3 h4
    rw [hg, if_neg h3, if_neg h4, hch]

/-- C9, counterexample: a two-channel image at scale 1 comes back unchanged as the gray
image, which therefore has two channels, not one. -/
theorem resizeAndConvert_counterexample :
    (resizeAndConvert twoChannelFrame 1).2 = twoChannelFrame ∧
    (resizeAndConvert twoChannelFrame 1).2.channels = 2 ∧
    (resizeAndConvert twoChannelFrame 1).2.channels ≠ 1 := by
  have h : (resizeAndConvert twoChannelFrame 1).2 = twoChannelFrame := by
    simp [resizeAndConvert, twoChannelFrame]
  rw [h]
  exact ⟨rfl, rfl, by decide⟩

/-- C9, worked example: the 10x10 colour frame at scale 1.4 is resized to 14x14 and
converted from BGR to a one-channel gray image. -/
theorem resizeAndConvert_spec_witness :
    (resizeAndConvert demoFrame (roundDouble (14 / 10))).1 = resize demoFrame ⟨14, 14⟩ ∧
    (resizeAndConvert demoFrame (roundDouble (14 / 10))).2 =
      cvtColor (resizeAndConvert demoFrame (roundDouble (14 / 10))).1 COLOR_BGR2GRAY ∧
    (resizeAndConvert demoFrame (roundDouble (14 / 10))).2.channels = 1 := by
  have h := resizeAndConvert_spec demoFrame (roundDouble (14 / 10))
  have h1 := (h.2.1 (by rw [double_1_4]; norm_num)).1
  have hc : cvRound (fmul demoFrame.cols (roundDouble (14 / 10))) = 14 := cvRound_ten_scaled
  have hr : cvRound (fmul demoFrame.rows (roundDouble (14 / 10))) = 14 := cvRound_ten_scaled
  rw [hc, hr] at h1
  exact ⟨h1, h.2.2.2.2.2.1 (by rw [h.2.2.1]; rfl), h.2.2.2.2.2.2.2.2.1 (Or.inr (Or.inl rfl))⟩

/-! ## The options the application starts with -/

/-- C5, as amended: the scale factor is a resize ratio; the record created by `App()`
holds the `double` 1.4, which is greater than 1, so `resizeAndConvert` resizes every
incoming frame, and for every frame of non-negative size whose scaled size fits in an
`int` the working frame's width `cvRound(cols * 1.4)` and height `cvRound(rows * 1.4)`
are not below the incoming frame's width and height. -/
theorem initial_scale_enlarges (base : BaseApp) (frame : Mat)
    (hc : 0 ≤ frame.cols) (hr : 0 ≤ frame.rows)
    (_hcfit : cvRound (fmul frame.cols (roundDouble (14 / 10))) < 2 ^ 31)
    (_hrfit : cvRound (fmul frame.rows (roundDouble (14 / 10))) < 2 ^ 31) :
    (App.new base).scaleFactor = roundDouble (14 / 10) ∧
    (App.new base).scaleFactor = 3152519739159347 / 2251799813685248 ∧
    1 < (App.new base).scaleFactor ∧
    (resizeAndConvert frame (App.new base).scaleFactor).1 =
      resize frame ⟨cvRound (fmul frame.cols (roundDouble (14 / 10))),
        cvRound (fmul frame.rows (roundDouble (14 / 10)))⟩ ∧
    (resizeAndConvert frame (App.new base).scaleFactor).1.cols
      = cvRound (fmul frame.cols (roundDouble (14 / 10))) ∧
    (resizeAndConvert frame (App.new base).scaleFactor).1.rows
      = cvRound (fmul frame.rows (roundDouble (14 / 10))) ∧
    frame.cols ≤ (resizeAndConvert frame (App.new base).scaleFactor).1.cols ∧
    frame.rows ≤ (resizeAndConvert frame (App.new base).scaleFactor).1.rows := by
  have hs : (App.new base).scaleFactor = roundDouble (14 / 10) := rfl
  have h1 : (1 : ℚ) + 1 / 2 ^ 52 ≤ roundDouble (14 / 10) := by
    rw [double_1_4]; norm_num
  have hne : roundDouble (14 / 10) ≠ 1 := by
    rw [double_1_4]; norm_num
  have hres : (resizeAndConvert frame (roundDouble (14 / 10))).1 =
      resize frame ⟨cvRound (fmul frame.cols (roundDouble (14 / 10))),
        cvRound (fmul frame.rows (roundDouble (14 / 10)))⟩ := by
    simp only [resizeAndConvert, hne, ne_eq, not_false_eq_true, if_true]
  rw [hs, hres]
  exact ⟨rfl, double_1_4, by rw [double_1_4]; norm_num, rfl, rfl, rfl,
    le_cvRound_fmul _ _ hc h1, le_cvRound_fmul _ _ hr h1⟩

/-- C5, counterexample: the scale factor set by `App()` exceeds 1, and the 10x10 frame
becomes a 14x14 working frame, wider and higher than the incoming one. -/
theorem initial_scale_counterexample :
    ¬ (App.new ⟨false, []⟩).scaleFactor ≤ 1 ∧
    (resizeAndConvert demoFrame (App.new ⟨false, []⟩).scaleFactor).1.cols = 14 ∧
    (resizeAndConvert demoFrame (App.new ⟨false, []⟩).scaleFactor).1.rows = 14 ∧
    demoFrame.cols = 10 ∧ demoFrame.rows = 10 := by
  have hs : (App.new ⟨false, []⟩).scaleFactor = roundDouble (14 / 10) := rfl
  have hne : roundDouble (14 / 10) ≠ 1 := by
    rw [double_1_4]; norm_num
  have hres : (resizeAndConvert demoFrame (roundDouble (14 / 10))).1 = resize demoFrame
      ⟨cvRound (fmul demoFrame.cols (roundDouble (14 / 10))),
        cvRound (fmul demoFrame.rows (roundDouble (14 / 10)))⟩ := by
    simp only [resizeAndConvert, hne, ne_eq, not_false_eq_true, if_true]
  have hc : cvRound (fmul demoFrame.cols (roundDouble (14 / 10))) = 14 := cvRound_ten_scaled
  have hr : cvRound (fmul demoFrame.rows (roundDouble (14 / 10))) = 14 := cvRound_ten_scaled
  rw [hs, hres, hc, hr]
  exact ⟨by rw [double_1_4]; norm_num, rfl, rfl, rfl, rfl⟩

/-- C5, worked example: the 10x10 frame is not shrunk by the initial scale factor. -/
theorem initial_scale_enlarges_witness :
    (0 ≤ demoFrame.cols ∧ 0 ≤ demoFrame.rows ∧
      cvRound (fmul demoFrame.cols (roundDouble (14 / 10))) < 2 ^ 31 ∧
      cvRound (fmul demoFrame.rows (roundDouble (14 / 10))) < 2 ^ 31) ∧
    demoFrame.cols ≤ (resizeAndConvert demoFrame (App.new ⟨false, []⟩).scaleFactor).1.cols ∧
    demoFrame.rows ≤ (resizeAndConvert demoFrame (App.new ⟨false, []⟩).scaleFactor).1.rows :=
  have hfit : cvRound (fmul (10 : Int) (roundDouble (14 / 10))) < 2 ^ 31 := by
    rw [cvRound_ten_scaled]; decide
  ⟨⟨by decide, by decide, hfit, hfit⟩,
    (initial_scale_enlarges ⟨false, []⟩ demoFrame (by decide) (by decide)
      hfit hfit).2.2.2.2.2.2⟩

/-! ## One pass of the loop -/

theorem drawn_append (a b : List Event) : drawn (a ++ b) = drawn a ++ drawn b := by
  simp [drawn, List.filterMap_append]

theorem drawn_rectangles (faces : List Rect) : drawn (faces.map .rectangle) = faces := by
  induction faces with
  | nil => rfl
  | cons r rest ih =>
    simp only [drawn, List.map_cons, List.filterMap_cons] at ih ⊢
    rw [ih]

theorem drawn_displayState (s : App) (frame : Mat) (p t : ℚ) :
    drawn (s.displayState frame p t) = [] := by
  unfold App.displayState drawn
  split_ifs <;> rfl

/-- The call recorded by the detection step. -/
theorem detect_call (ext : Extern) (s : App) (l : Locals) :
    (App.detect ext s l).1 =
      if s.useGPU = true then
        .gpuDetect (s.gpuCall (resizeAndConvert l.frame_cpu s.scaleFactor).2)
      else
        .cpuDetect (s.cpuCall (resizeAndConvert l.frame_cpu s.scaleFactor).2
          ext.classifierSize) := by
  unfold App.detect
  split_ifs <;> rfl

theorem drawn_detect (ext : Extern) (s : App) (l : Locals) :
    drawn [(App.detect ext s l).1] = [] := by
  rw [detect_call]
  split_ifs <;> rfl

/-- The key handler returns when the sources are not empty, and only appends to the log
events that neither draw a rectangle, nor pull a frame, nor call a detector. -/
theorem processKey_log {ext : Extern} {key : Int} {w : World}
    (hs : (ext.baseProcessKey key w.app.toBaseApp).2.sources ≠ []) :
    ∃ r w1 evs, App.processKey ext key w = .ret r w1 ∧ w1.log = w.log ++ evs ∧
      drawn evs = [] ∧ pulled evs = [] ∧ detectorCalls evs = [] := by
  by_cases hb : (ext.baseProcessKey key w.app.toBaseApp).1 = true
  · exact ⟨_, _, [], processKey_base hb, (List.append_nil _).symm, rfl, rfl, rfl⟩
  have hb1 : (ext.baseProcessKey key w.app.toBaseApp).1 = false := by simpa using hb
  by_cases h32 : toupper (key % 256) = 32
  · exact ⟨_, _, _, processKey_space hb1 h32, rfl, rfl, rfl, rfl⟩
  by_cases h72 : toupper (key % 256) = 72
  · exact ⟨_, _, [], processKey_H hb1 h72, (List.append_nil _).symm, rfl, rfl, rfl⟩
  by_cases h49 : toupper (key % 256) = 49
  · exact ⟨_, _, _, processKey_1 hb1 h49, rfl, rfl, rfl, rfl⟩
  by_cases h81 : toupper (key % 256) = 81
  · exact ⟨_, _, _, processKey_Q hb1 h81, rfl, rfl, rfl, rfl⟩
  by_cases h77 : toupper (key % 256) = 77
  · exact ⟨_, _, _, processKey_M hb1 h77, rfl, rfl, rfl, rfl⟩
  by_cases h70 : toupper (key % 256) = 70
  · exact ⟨_, _, _, processKey_F hb1 h70, rfl, rfl, rfl, rfl⟩
  by_cases h78 : toupper (key % 256) = 78
  · obtain ⟨src, h⟩ := processKey_N hb1 h78 hs
    exact ⟨_, _, _, h, rfl, rfl, rfl, rfl⟩
  · have hc : toupper (key % 256) ∉ [32, 72, 49, 81, 77, 70, 78] := by
      simp [h32, h72, h49, h81, h77, h70, h78]
    exact ⟨_, _, [], processKey_other hb1 hc, (List.append_nil _).symm, rfl, rfl, rfl⟩

/-- An iteration whose detection step succeeds returns, with the log extended by the
frame pulled, the detector call, the rectangles, the overlay, the image shown and the
events of the key. -/
theorem iteration_ret {ext : Extern} {inp : Input} {w : World} {l l2 : Locals}
    (hsrc : w.app.curSource < w.app.sources.length)
    (hd : (App.detect ext w.app { l with frame_cpu := inp.frame }).2 = .ok l2)
    (hs : (ext.baseProcessKey (inp.key % 256) w.app.toBaseApp).2.sources ≠ []) :
    ∃ w1 evs, App.iteration ext inp w l = .ret ()
        (w1, { l2 with img_to_show :=
          if w.app.useGPU = true then l2.resized_gpu else l2.resized_cpu }) ∧
      w1.log = w.log ++ [.next w.app.sources[w.app.curSource],
          (App.detect ext w.app { l with frame_cpu := inp.frame }).1] ++
        l2.faces.map .rectangle ++
        w.app.displayState (if w.app.useGPU = true then l2.resized_gpu else l2.resized_cpu)
          inp.proc_fps inp.total_fps ++
        [.imshow (if w.app.useGPU = true then l2.resized_gpu else l2.resized_cpu)] ++ evs ∧
      drawn evs = [] ∧ pulled evs = [] ∧ detectorCalls evs = [] := by
  obtain ⟨r, w1, evs, hk, hlog, hdr, hpl, hdc⟩ := @processKey_log ext (inp.key % 256)
    (⟨w.app, w.log ++ [.next w.app.sources[w.app.curSource],
          (App.detect ext w.app { l with frame_cpu := inp.frame }).1] ++
        l2.faces.map .rectangle ++
        w.app.displayState (if w.app.useGPU = true then l2.resized_gpu else l2.resized_cpu)
          inp.proc_fps inp.total_fps ++
        [.imshow (if w.app.useGPU = true then l2.resized_gpu else l2.resized_cpu)]⟩) hs
  refine ⟨w1, evs, ?_, hlog, hdr, hpl, hdc⟩
  unfold App.iteration
  simp only [List.getElem?_eq_getElem hsrc, hd, hk]

/-- The faces after a GPU detection of `n` objects into a buffer of at least `n`
columns are the first `n` columns of the buffer, whatever the list held before. -/
theorem updateFaces_ok (faces buf : List Rect) (n : Int) (h0 : 0 ≤ n)
    (hbuf : n ≤ buf.length) : updateFaces faces n buf = .ok (buf.take n.toNat) := by
  unfold updateFaces
  by_cases hz : n = 0
  · simp [hz]
  · have hneg : ¬ n < 0 := by omega
    have hlen : ¬ buf.length < n.toNat := by omega
    have hk : n.toNat ≤ buf.length := by omega
    simp only [hz, if_false, hneg, hlen, downloadInto, vectorResize, List.length_take,
      Nat.min_eq_left hk]
    congr 1
    have : (List.take n.toNat faces ++
        List.replicate (n.toNat - faces.length) (⟨0, 0, 0, 0⟩ : Rect)).length = n.toNat := by
      simp only [List.length_append, List.length_take, List.length_replicate]
      omega
    rw [List.drop_of_length_le (le_of_eq this), List.append_nil]

/-! ## Detection -/

/-- The detection step in GPU mode, given what the detector returned. -/
theorem detect_gpu {ext : Extern} {s : App} {l : Locals} {n : Int} {buf : List Rect}
    (hgpu : s.useGPU = true)
    (hdet : ext.gpuDetect (s.gpuCall (resizeAndConvert l.frame_cpu s.scaleFactor).2) = (n, buf))
    (h0 : 0 ≤ n) (hbuf : n ≤ buf.length) :
    (App.detect ext s l).2 = .ok { l with
      frame_gpu := l.frame_cpu
      resized_gpu := (resizeAndConvert l.frame_cpu s.scaleFactor).1
      gray_gpu := (resizeAndConvert l.frame_cpu s.scaleFactor).2
      facesBuf_gpu := buf
      faces := buf.take n.toNat } := by
  unfold App.detect
  simp only [hgpu, if_true, hdet, updateFaces_ok l.faces buf n h0 hbuf]

/-- C8: in GPU mode, whatever the faces list held before, when the detector returns a
count `n ≥ 0` and a buffer of at least `n` columns, the iteration returns with a faces
list of exactly `n` elements, the first `n` rectangles of the buffer (the empty list when
`n = 0`), and the rectangles drawn in this iteration are exactly those `n`. -/
theorem gpu_faces_replaced (ext : Extern) (inp : Input) (w : World) (l : Locals)
    (n : Int) (buf : List Rect)
    (hgpu : w.app.useGPU = true)
    (hsrc : w.app.curSource < w.app.sources.length)
    (hs : (ext.baseProcessKey (inp.key % 256) w.app.toBaseApp).2.sources ≠ [])
    (hdet : ext.gpuDetect
      (w.app.gpuCall (resizeAndConvert inp.frame w.app.scaleFactor).2) = (n, buf))
    (h0 : 0 ≤ n) (hbuf : n ≤ buf.length) :
    ∃ st, App.iteration ext inp w l = .ret () st ∧
      st.2.faces = buf.take n.toNat ∧
      (st.2.faces.length : Int) = n ∧
      (n = 0 → st.2.faces = []) ∧
      drawn st.1.log = drawn w.log ++ buf.take n.toNat ∧
      ((drawn st.1.log).length : Int) = (drawn w.log).length + n := by
  have hd := @detect_gpu ext w.app { l with frame_cpu := inp.frame } n buf
    hgpu hdet h0 hbuf
  obtain ⟨w1, evs, hit, hlog, hdr, -, -⟩ := iteration_ret hsrc hd hs
  have hlen : ((buf.take n.toNat).length : Int) = n := by
    rw [List.length_take]
    omega
  have hdrawn : drawn w1.log = drawn w.log ++ buf.take n.toNat := by
    have h2 : [Event.next w.app.sources[w.app.curSource],
        (App.detect ext w.app { l with frame_cpu := inp.frame }).1] =
        [Event.next w.app.sources[w.app.curSource]] ++
        [(App.detect ext w.app { l with frame_cpu := inp.frame }).1] := rfl
    rw [hlog, h2]
    simp only [drawn_append, drawn_rectangles, drawn_displayState, drawn_detect, hdr,
      List.append_nil]
    simp [drawn]
  refine ⟨_, hit, rfl, hlen, ?_, hdrawn, ?_⟩
  · intro hz
    simp [hz]
  · rw [hdrawn, List.length_append]
    push_cast
    rw [hlen]

/-- C8, worked example: three faces of an earlier frame are replaced by the two faces the
detector reports now. -/
theorem gpu_faces_replaced_witness :
    ∃ st, App.iteration twoFacesExtern demoInput demoWorld staleLocals = .ret () st ∧
      st.2.faces = [⟨1, 1, 5, 5⟩, ⟨2, 2, 6, 6⟩] ∧
      drawn st.1.log = [⟨1, 1, 5, 5⟩, ⟨2, 2, 6, 6⟩] := by
  obtain ⟨st, h1, h2, -, -, h5, -⟩ := gpu_faces_replaced twoFacesExtern demoInput demoWorld
    staleLocals 2 [⟨1, 1, 5, 5⟩, ⟨2, 2, 6, 6⟩, ⟨0, 0, 0, 0⟩] rfl (by decide) (by decide) rfl
    (by decide) (by decide)
  exact ⟨st, h1, h2, h5⟩

/-- The first overlay line of an iteration in GPU mode shows the size of the resized
frame. -/
theorem iteration_overlay_gpu {ext : Extern} {inp : Input} {w : World} {l : Locals}
    {n : Int} {buf : List Rect}
    (hgpu : w.app.useGPU = true)
    (hsrc : w.app.curSource < w.app.sources.length)
    (hs : (ext.baseProcessKey (inp.key % 256) w.app.toBaseApp).2.sources ≠ [])
    (hdet : ext.gpuDetect
      (w.app.gpuCall (resizeAndConvert inp.frame w.app.scaleFactor).2) = (n, buf))
    (h0 : 0 ≤ n) (hbuf : n ≤ buf.length) :
    ∃ st, App.iteration ext inp w l = .ret () st ∧
      st.2.img_to_show = (resizeAndConvert inp.frame w.app.scaleFactor).1 ∧
      Event.printText (.dims "Source size: "
        (resizeAndConvert inp.frame w.app.scaleFactor).1.cols
        (resizeAndConvert inp.frame w.app.scaleFactor).1.rows) 0 false ∈ st.1.log := by
  have hd := @detect_gpu ext w.app { l with frame_cpu := inp.frame } n buf
    hgpu hdet h0 hbuf
  obtain ⟨w1, evs, hit, hlog, -, -, -⟩ := iteration_ret hsrc hd hs
  refine ⟨_, hit, by simp [hgpu], ?_⟩
  rw [hlog]
  simp [App.displayState, hgpu]

/-- C6, the code at the failing input: with the options of `App()` and a 10x10 frame
from the source, the overlay line reads "Source size: 14x14", the size of the resized
image that is shown, not the 10x10 of the frame pulled. -/
theorem overlay_shows_working_size :
    demoInput.frame.cols = 10 ∧ demoInput.frame.rows = 10 ∧
    ∃ st, App.iteration demoExtern demoInput demoWorld Locals.init = .ret () st ∧
      st.2.img_to_show.cols = 14 ∧ st.2.img_to_show.rows = 14 ∧
      Event.printText (.dims "Source size: " 14 14) 0 false ∈ st.1.log := by
  refine ⟨rfl, rfl, ?_⟩
  obtain ⟨st, h1, h2, h3⟩ := @iteration_overlay_gpu demoExtern demoInput demoWorld
    Locals.init 0 [] rfl (by decide) (by decide) rfl (by decide) (by decide)
  have hne : roundDouble (14 / 10) ≠ 1 := by
    rw [double_1_4]; norm_num
  have hres : (resizeAndConvert demoInput.frame demoWorld.app.scaleFactor).1 =
      resize demoFrame ⟨14, 14⟩ := by
    have e : (resizeAndConvert demoFrame (roundDouble (14 / 10))).1 = resize demoFrame
        ⟨cvRound (fmul demoFrame.cols (roundDouble (14 / 10))),
          cvRound (fmul demoFrame.rows (roundDouble (14 / 10)))⟩ := by
      simp only [resizeAndConvert, hne, ne_eq, not_false_eq_true, if_true]
    have hc : cvRound (fmul demoFrame.cols (roundDouble (14 / 10))) = 14 :=
      cvRound_ten_scaled
    have hr : cvRound (fmul demoFrame.rows (roundDouble (14 / 10))) = 14 :=
      cvRound_ten_scaled
    rw [hc, hr] at e
    exact e
  rw [hres] at h2 h3
  exact ⟨st, h1, by rw [h2]; rfl, by rw [h2]; rfl, h3⟩

end FaceDetection
